import Mathlib

/-!
Verification of the code-export subsystem of the GTAV-NativeDB front end.

The development shallowly embeds the parts of the repository that the claims
concern: the settings change handler and download handler of the generate-code
page (src/pages/GenerateCodePage/Language.tsx), the declared generator contract
(ICodeGenerator), and the exporter driver together with a generic backend.
The exporter implementation (NativeExporter, CodeGeneratorBase) is not among
the sources at hand, only its interface and callers are; those definitions are
modelled from the specification and are marked as such in their doc comments.
-/

/-- Runtime value of one settings field.  The settings objects handled by the
generate-code page hold only primitive values: booleans for checkbox options
and strings for text and combo options, so the JavaScript typeof test in the
change handler distinguishes exactly these two shapes. -/
inductive SettingsValue where
  | boolVal : Bool → SettingsValue
  | strVal : String → SettingsValue
deriving DecidableEq, Repr

/-- Settings object as an association list, preserving JavaScript object key
insertion order.  Keys are unique in practice; the operations below extend
pointwise to duplicate keys. -/
abbrev Settings := List (String × SettingsValue)

/-- Key-membership test, embedding the JavaScript check whether the event
target field name occurs in the settings object. -/
def settingsHas : Settings → String → Bool
  | [], _ => false
  | p :: rest, k => p.1 == k || settingsHas rest k

/-- Read of a settings field by name. -/
def settingsGet : Settings → String → Option SettingsValue
  | [], _ => none
  | p :: rest, k => if p.1 == k then some p.2 else settingsGet rest k

/-- Functional update of one field, embedding the object-spread update of the
change handler: an existing key keeps its position and receives the new value,
every other key keeps its value. -/
def settingsSet : Settings → String → SettingsValue → Settings
  | [], _, _ => []
  | p :: rest, k, v => (if p.1 == k then (k, v) else p) :: settingsSet rest k v

/-- Relevant part of a change event target: the field name, the raw value
string, and the checked flag when the target carries one (checkbox events do,
select and text events do not). -/
structure EventTarget where
  name : String
  value : String
  checked : Option Bool
deriving DecidableEq, Repr

/-- Change handler of the generate-code page, embedded from handleChange in
Language.tsx: a change whose target name is not a key of the settings object
is ignored; otherwise the handler inspects the runtime type of the current
value of that field (the typeof test) and, when it is boolean and the event
target carries a checked flag, stores the checked flag, else stores the raw
value string. -/
def handleChange (ev : EventTarget) (settings : Settings) : Settings :=
  if settingsHas settings ev.name = false then
    settings
  else
    match settingsGet settings ev.name, ev.checked with
    | some (SettingsValue.boolVal _), some c =>
        settingsSet settings ev.name (SettingsValue.boolVal c)
    | _, _ => settingsSet settings ev.name (SettingsValue.strVal ev.value)

/-- Type tag of an option in a backend options schema, from the option
interfaces in Language.tsx. -/
inductive OptionType where
  | boolean
  | string
  | combo
deriving DecidableEq, Repr

/-- Change handler as the specification describes it: boolean versus scalar
handling is decided from the option's declared schema type tag, not from the
runtime type of the current settings value.  This definition follows the
specification's words and exists only to be compared with handleChange, which
is embedded from the source. -/
def handleChangeSchemaTag (tag : OptionType) (ev : EventTarget) (settings : Settings) : Settings :=
  if settingsHas settings ev.name = false then
    settings
  else
    match tag, ev.checked with
    | OptionType.boolean, some c =>
        settingsSet settings ev.name (SettingsValue.boolVal c)
    | _, _ => settingsSet settings ev.name (SettingsValue.strVal ev.value)

/-- Schema tag matching the runtime type of a settings value, used to state
what the source handler actually keys its decision on. -/
def runtimeTag : Option SettingsValue → OptionType
  | some (SettingsValue.boolVal _) => OptionType.boolean
  | _ => OptionType.string

/-- Methods of the generator contract, from the ICodeGenerator interface
declaration. -/
inductive BackendMethod where
  | startMethod
  | endMethod
  | nativeToCodeGenNativeMethod
  | addNativeMethod
  | pushNamespaceMethod
  | popNamespaceMethod
  | getMethod
  | submitExtraFileMethod
  | getExtraFilesMethod
  | clearExtraFilesMethod
deriving DecidableEq, Repr

/-- Declared return shape of a contract method. -/
inductive MethodReturn where
  | selfRef
  | codeGenNativeRet
  | textRet
  | voidRet
  | fileListRet
deriving DecidableEq, Repr

/-- Declared return type of each ICodeGenerator method, transcribed from the
interface declaration: start, end, addNative, pushNamespace and popNamespace
are declared as returning this; nativeToCodeGenNative returns a CodeGenNative;
get returns a string; getExtraFiles returns a file list; submitExtraFile and
clearExtraFiles return void. -/
def declaredReturn : BackendMethod → MethodReturn
  | BackendMethod.startMethod => MethodReturn.selfRef
  | BackendMethod.endMethod => MethodReturn.selfRef
  | BackendMethod.nativeToCodeGenNativeMethod => MethodReturn.codeGenNativeRet
  | BackendMethod.addNativeMethod => MethodReturn.selfRef
  | BackendMethod.pushNamespaceMethod => MethodReturn.selfRef
  | BackendMethod.popNamespaceMethod => MethodReturn.selfRef
  | BackendMethod.getMethod => MethodReturn.textRet
  | BackendMethod.submitExtraFileMethod => MethodReturn.voidRet
  | BackendMethod.getExtraFilesMethod => MethodReturn.fileListRet
  | BackendMethod.clearExtraFilesMethod => MethodReturn.voidRet

/-- C-like type of the code-generation data model, from the CodeGenType
interface: a pointer-indirection count (a JavaScript number, embedded as an
integer), a base type name, and a const qualifier. -/
structure CodeGenType where
  pointers : Int
  baseType : String
  isConst : Bool
deriving DecidableEq, Repr

/-- Function parameter of the code-generation data model. -/
structure CodeGenParam where
  type : CodeGenType
  name : String
deriving DecidableEq, Repr

/-- Normalized native record fed to a backend, from the CodeGenNative
interface. -/
structure CodeGenNative where
  hash : String
  jhash : Option String
  params : List CodeGenParam
  returnType : CodeGenType
  name : String
  comment : String
  build : Option String
  oldNames : Option (List String)
deriving DecidableEq, Repr

/-- Auxiliary generated artifact, from the CodeGeneratorFile interface. -/
structure CodeGeneratorFile where
  name : String
  extension : String
  content : String
  mimeType : String
deriving DecidableEq, Repr

/-- Raw parameter of a catalog native record: the type is still a plain
type-expression string. -/
structure NativeParam where
  type : String
  name : String
deriving DecidableEq, Repr

/-- Raw native record supplied by the external catalog, restricted to the
fields the export core consumes. -/
structure Native where
  hash : String
  jhash : Option String
  name : String
  params : List NativeParam
  returnType : String
  comment : String
  build : Option String
  oldNames : Option (List String)
deriving DecidableEq, Repr

/-- Namespace grouping entry of a catalog: a display name and the ordered
list of native hashes belonging to the namespace. -/
structure NamespaceDef where
  name : String
  natives : List String
deriving DecidableEq, Repr

/-- Input catalog of an export run: namespaces and the hash-to-native map,
both as association lists preserving the JavaScript object iteration order. -/
structure Catalog where
  namespaces : List (String × NamespaceDef)
  natives : List (String × Native)
deriving DecidableEq, Repr

/-- Hash lookup in the catalog native map. -/
def lookupNative : List (String × Native) → String → Option Native
  | [], _ => none
  | p :: rest, h => if p.1 == h then some p.2 else lookupNative rest h

/-- Modelled from the spec: the concrete generator backends (CodeGeneratorBase
and its per-language subclasses) are not among the sources at hand, only the
ICodeGenerator interface and the callers are.  A backend is modelled as a
record of pure emission functions: the conversion from raw natives, the text
fragments emitted on start, namespace open and close, per-native emission and
end, and the extra files it registers per native and at end of run. -/
structure BackendSpec where
  convert : Native → CodeGenNative
  startText : String
  openNamespace : String → String
  closeNamespace : String → String
  renderNative : CodeGenNative → String
  endText : String
  extraFilesOnAdd : CodeGenNative → List CodeGeneratorFile
  extraFilesOnEnd : List CodeGeneratorFile

/-- Mutable state of one backend instance: the emission buffer, the namespace
stack, and the extra-file accumulator. -/
structure BackendState where
  buffer : String
  nsStack : List String
  extraFiles : List CodeGeneratorFile
deriving DecidableEq, Repr

/-- State of a freshly constructed backend instance: the exporter creates one
per run, so all three components start empty. -/
def freshBackendState : BackendState :=
  { buffer := "", nsStack := [], extraFiles := [] }

/-- Modelled from the spec: start resets the emission buffer and the namespace
stack; the extra-file accumulator is a side channel independent of the main
buffer and is only emptied by clearExtraFiles. -/
def backendStart (b : BackendSpec) (st : BackendState) : BackendState :=
  { st with buffer := b.startText, nsStack := [] }

/-- Modelled from the spec: pushNamespace emits the namespace opening syntax
and tracks nesting depth. -/
def pushNamespace (b : BackendSpec) (st : BackendState) (n : String) : BackendState :=
  { st with
    buffer := st.buffer ++ b.openNamespace n
    nsStack := n :: st.nsStack }

/-- Modelled from the spec: popNamespace closes the most recently opened
namespace scope.  The exporter always balances push and pop, so the
empty-stack contract violation is modelled as a no-op; no claim concerns it. -/
def popNamespace (b : BackendSpec) (st : BackendState) : BackendState :=
  match st.nsStack with
  | [] => st
  | n :: rest =>
      { st with buffer := st.buffer ++ b.closeNamespace n, nsStack := rest }

/-- Modelled from the spec: submitExtraFile appends one file to the extra-file
accumulator. -/
def submitExtraFile (st : BackendState) (f : CodeGeneratorFile) : BackendState :=
  { st with extraFiles := st.extraFiles ++ [f] }

/-- Modelled from the spec: getExtraFiles reads the accumulator, readable at
any time. -/
def getExtraFiles (st : BackendState) : List CodeGeneratorFile :=
  st.extraFiles

/-- Modelled from the spec: clearExtraFiles empties the accumulator. -/
def clearExtraFiles (st : BackendState) : BackendState :=
  { st with extraFiles := [] }

/-- Sequence of submitExtraFile calls during one run, in submission order. -/
def submitMany (st : BackendState) (fs : List CodeGeneratorFile) : BackendState :=
  fs.foldl submitExtraFile st

/-- Modelled from the spec: addNative emits one declaration for the normalized
native and registers whatever extra files the backend submits for it. -/
def addNative (b : BackendSpec) (st : BackendState) (n : CodeGenNative) : BackendState :=
  { st with
    buffer := st.buffer ++ b.renderNative n
    extraFiles := st.extraFiles ++ b.extraFilesOnAdd n }

/-- Modelled from the spec: end finalizes the buffer and registers the extra
files the backend submits at end of run. -/
def backendEnd (b : BackendSpec) (st : BackendState) : BackendState :=
  { st with
    buffer := st.buffer ++ b.endText
    extraFiles := st.extraFiles ++ b.extraFilesOnEnd }

/-- Modelled from the spec: the inner exporter loop over one namespace's hash
list, in listed order: look each hash up in the native map, failing the whole
run on a missing hash, otherwise convert and emit. -/
def exportHashes (b : BackendSpec) (natives : List (String × Native)) :
    List String → BackendState → Except String BackendState
  | [], st => Except.ok st
  | h :: rest, st =>
    match lookupNative natives h with
    | none => Except.error ("Native with hash " ++ h ++ " is missing from the catalog")
    | some raw => exportHashes b natives rest (addNative b st (b.convert raw))

/-- Modelled from the spec: the outer exporter loop over the namespaces in
iteration order: push the namespace, emit its natives, pop it; any failure
aborts the run. -/
def exportNamespaces (b : BackendSpec) (natives : List (String × Native)) :
    List (String × NamespaceDef) → BackendState → Except String BackendState
  | [], st => Except.ok st
  | (_, ns) :: rest, st =>
    match exportHashes b natives ns.natives (pushNamespace b st ns.name) with
    | Except.error e => Except.error e
    | Except.ok st2 => exportNamespaces b natives rest (popNamespace b st2)

/-- Modelled from the spec: exportNatives drives one fresh backend instance
through one complete lifecycle, returning the final text and the extra files,
or the first failure with no partial text. -/
def exportNatives (b : BackendSpec) (cat : Catalog) :
    Except String (String × List CodeGeneratorFile) :=
  match exportNamespaces b cat.natives cat.namespaces (backendStart b freshBackendState) with
  | Except.error e => Except.error e
  | Except.ok st => Except.ok ((backendEnd b st).buffer, getExtraFiles (backendEnd b st))

/-- One browser download action: the content handed to the download helper,
the filename offered, and the mime type. -/
structure DownloadAction where
  content : String
  filename : String
  mimeType : String
deriving DecidableEq, Repr

/-- Download handler of the generate-code page, embedded from handleDownload
in Language.tsx: run the exporter over the catalog, offer the main text as
natives followed by the page extension, then offer each extra file as a
separate artifact named by the file name, a dot, and the file extension, with
the file mime type.  A failing export propagates and offers nothing. -/
def handleDownload (b : BackendSpec) (cat : Catalog) (extension : String) :
    Except String (List DownloadAction) :=
  match exportNatives b cat with
  | Except.error e => Except.error e
  | Except.ok (code, files) =>
    Except.ok (DownloadAction.mk code ("natives." ++ extension) "text/plain" ::
      files.map (fun f => DownloadAction.mk f.content (f.name ++ "." ++ f.extension) f.mimeType))

/-- Prefix test on character lists, structural so that concrete witnesses
evaluate by kernel reduction. -/
def leadsWith : List Char → List Char → Bool
  | [], _ => true
  | _ :: _, [] => false
  | c :: cs, d :: ds => c == d && leadsWith cs ds

/-- Modelled from the spec: a backend derives the pointer-indirection count of
a raw type expression from its pointer markers, so the count is the number of
star characters in the string (zero for a value type). -/
def countPointerMarkers (s : String) : Nat :=
  (s.toList.filter (fun c => c == '*')).length

/-- Base type name of a raw type expression: the expression without its
pointer markers and without a leading const qualifier. -/
def baseTypeName (s : String) : String :=
  let noConst := if leadsWith "const ".toList s.toList then s.toList.drop 6 else s.toList
  String.mk (noConst.filter (fun c => !(c == '*' || c == ' ')))

/-- Modelled from the spec: conversion of one raw type-expression string into
the CodeGenType of the data model, with the pointer count taken from the
pointer markers and the const flag from a leading const qualifier. -/
def nativeTypeToCodeGenType (s : String) : CodeGenType :=
  { pointers := (countPointerMarkers s : Int)
    baseType := baseTypeName s
    isConst := leadsWith "const ".toList s.toList }

/-- Modelled from the spec: nativeToCodeGenNative normalizes one raw catalog
native into the shape fed to addNative, converting the return type and each
parameter type in order and copying the remaining fields. -/
def nativeToCodeGenNative (n : Native) : CodeGenNative :=
  { hash := n.hash
    jhash := n.jhash
    params := n.params.map (fun p => CodeGenParam.mk (nativeTypeToCodeGenType p.type) p.name)
    returnType := nativeTypeToCodeGenType n.returnType
    name := n.name
    comment := n.comment
    build := n.build
    oldNames := n.oldNames }

/-- Extra file used by the concrete witnesses: a companion manifest such as a
backend might register at end of run. -/
def demoExtraFile : CodeGeneratorFile :=
  { name := "natives", extension := "json", content := "manifest", mimeType := "application/json" }

/-- Second extra file used by the accumulation witness. -/
def demoExtraFileTwo : CodeGeneratorFile :=
  { name := "shv", extension := "h", content := "header", mimeType := "text/x-h" }

/-- Concrete backend used by the witnesses: a minimal C-style emitter that
registers one manifest extra file at end of run. -/
def demoBackend : BackendSpec :=
  { convert := nativeToCodeGenNative
    startText := ""
    openNamespace := fun n => "namespace " ++ n ++ "\n"
    closeNamespace := fun _ => "end\n"
    renderNative := fun n => n.name ++ "\n"
    endText := ""
    extraFilesOnAdd := fun _ => []
    extraFilesOnEnd := [demoExtraFile] }

/-- Concrete raw native used by the witnesses, taken from the concrete
scenario of the specification. -/
def demoNative : Native :=
  { hash := "0xD49F9B0955C367DE"
    jhash := none
    name := "GET_LABEL_TEXT"
    params := [NativeParam.mk "const char*" "labelName"]
    returnType := "const char*"
    comment := ""
    build := none
    oldNames := none }

/-- Concrete one-namespace catalog used by the witnesses. -/
def demoCatalog : Catalog :=
  { namespaces := [("NATIVE", NamespaceDef.mk "NATIVE" ["0xD49F9B0955C367DE"])]
    natives := [("0xD49F9B0955C367DE", demoNative)] }

/-- Concrete catalog whose namespace lists a hash absent from the native map,
used by the missing-hash witness. -/
def demoBrokenCatalog : Catalog :=
  { namespaces := [("NATIVE", NamespaceDef.mk "NATIVE" ["0xDEAD"])]
    natives := [] }

/-- Settings object with a stale string value in a field whose schema option is
declared boolean, as happens with cached settings from a previous schema. -/
def schemaMismatchSettings : Settings := [("useNamespaces", SettingsValue.strVal "old")]

/-- Checkbox change event targeting the mismatched field, carrying both a
checked flag and a raw value. -/
def schemaMismatchEvent : EventTarget := EventTarget.mk "useNamespaces" "raw" (some true)

theorem settingsGet_settingsSet_self (s : Settings) (k : String) (v : SettingsValue)
    (h : settingsHas s k = true) : settingsGet (settingsSet s k v) k = some v := by
  induction s with
  | nil => simp [settingsHas] at h
  | cons p rest ih =>
    by_cases hp : (p.1 == k) = true
    · simp [settingsSet, settingsGet, hp]
    · have h2 : settingsHas rest k = true := by
        simpa [settingsHas, hp] using h
      simp [settingsSet, settingsGet, hp, ih h2]

theorem settingsGet_settingsSet_ne (s : Settings) (n k : String) (v : SettingsValue)
    (hk : k ≠ n) : settingsGet (settingsSet s n v) k = settingsGet s k := by
  induction s with
  | nil => rfl
  | cons p rest ih =>
    by_cases hp : (p.1 == n) = true
    · have hnk : (n == k) = false := by
        simp only [beq_eq_false_iff_ne]
        exact fun hEq => hk hEq.symm
      have hpk : (p.1 == k) = false := by
        have hpn : p.1 = n := by simpa using hp
        simp only [beq_eq_false_iff_ne, hpn]
        exact fun hEq => hk hEq.symm
      simp [settingsSet, settingsGet, hp, hnk, hpk, ih]
    · simp [settingsSet, settingsGet, hp, ih]

theorem handleChange_cases (ev : EventTarget) (s : Settings) :
    handleChange ev s = s ∨ ∃ v, handleChange ev s = settingsSet s ev.name v := by
  unfold handleChange
  by_cases h : settingsHas s ev.name = false
  · simp [h]
  · cases hg : settingsGet s ev.name with
    | none =>
        cases hc : ev.checked <;>
          · simp only [h, if_false, hg, hc]
            exact Or.inr ⟨_, rfl⟩
    | some v =>
        cases v <;> cases hc : ev.checked <;>
          · simp only [h, if_false, hg, hc]
            exact Or.inr ⟨_, rfl⟩

/-- C3: a change event whose target field name is not a key of the current
settings object leaves the settings object unchanged, and the handler, being
total, raises no error. -/
theorem handleChange_unknown_field_ignored (ev : EventTarget) (s : Settings)
    (h : settingsHas s ev.name = false) :
    handleChange ev s = s := by
  unfold handleChange
  simp [h]

/-- Witness for C3 at a concrete stale field name. -/
theorem handleChange_unknown_field_ignored_witness :
    settingsHas [("indent", SettingsValue.strVal "tabs")] "stale" = false ∧
    handleChange (EventTarget.mk "stale" "v" none) [("indent", SettingsValue.strVal "tabs")]
      = [("indent", SettingsValue.strVal "tabs")] :=
  ⟨by decide, handleChange_unknown_field_ignored (EventTarget.mk "stale" "v" none)
    [("indent", SettingsValue.strVal "tabs")] (by decide)⟩

/-- C7: for an existing field whose current value is boolean, a change event
carrying a checked flag stores the checked flag into that field; for every
other existing field the handler stores the raw value of the event target. -/
theorem handleChange_checked_conversion (ev : EventTarget) (s : Settings)
    (hin : settingsHas s ev.name = true) :
    (∀ c, (∃ b, settingsGet s ev.name = some (SettingsValue.boolVal b)) →
      ev.checked = some c →
      handleChange ev s = settingsSet s ev.name (SettingsValue.boolVal c)) ∧
    (((∀ b, settingsGet s ev.name ≠ some (SettingsValue.boolVal b)) ∨ ev.checked = none) →
      handleChange ev s = settingsSet s ev.name (SettingsValue.strVal ev.value)) := by
  have hfalse : ¬(settingsHas s ev.name = false) := by simp [hin]
  constructor
  · rintro c ⟨b, hb⟩ hc
    unfold handleChange
    simp [hfalse, hb, hc]
  · intro hother
    unfold handleChange
    rcases hother with hnb | hcn
    · cases hg : settingsGet s ev.name with
      | none => cases hc : ev.checked <;> simp [hfalse, hg, hc]
      | some v =>
        cases v with
        | boolVal b => exact absurd hg (hnb b)
        | strVal t => cases hc : ev.checked <;> simp [hfalse, hg, hc]
    · cases hg : settingsGet s ev.name with
      | none => simp [hfalse, hg, hcn]
      | some v => cases v <;> simp [hfalse, hg, hcn]

/-- Witness for C7: a checkbox event on a boolean-valued field stores the
checked flag. -/
theorem handleChange_checked_conversion_witness :
    settingsHas [("comments", SettingsValue.boolVal false)] "comments" = true ∧
    handleChange (EventTarget.mk "comments" "v" (some true))
      [("comments", SettingsValue.boolVal false)]
      = [("comments", SettingsValue.boolVal true)] := by
  refine ⟨by decide, ?_⟩
  have h := (handleChange_checked_conversion (EventTarget.mk "comments" "v" (some true))
    [("comments", SettingsValue.boolVal false)] (by decide)).1 true ⟨false, by decide⟩ rfl
  exact h.trans (by decide)

/-- C10: the settings object produced by the change handler agrees with the
previous one on every field other than the one named by the event target. -/
theorem handleChange_frame (ev : EventTarget) (s : Settings) (k : String)
    (hk : k ≠ ev.name) :
    settingsGet (handleChange ev s) k = settingsGet s k := by
  rcases handleChange_cases ev s with h | ⟨v, h⟩
  · rw [h]
  · rw [h, settingsGet_settingsSet_ne s ev.name k v hk]

/-- Witness for C10 at a two-field settings object. -/
theorem handleChange_frame_witness :
    ("other" : String) ≠ "indent" ∧
    settingsGet (handleChange (EventTarget.mk "indent" "v" none)
      [("indent", SettingsValue.strVal "1"), ("other", SettingsValue.strVal "2")]) "other"
      = settingsGet [("indent", SettingsValue.strVal "1"),
          ("other", SettingsValue.strVal "2")] "other" :=
  ⟨by decide, handleChange_frame (EventTarget.mk "indent" "v" none)
    [("indent", SettingsValue.strVal "1"), ("other", SettingsValue.strVal "2")]
    "other" (by decide)⟩

/-- C1 counterexample: on a field whose schema option is declared boolean but
whose cached settings value is a string, the source handler stores the raw
value while the schema-tag handler described by the claim stores the checked
flag, so the source handler does not decide from the schema type tag. -/
theorem handleChange_schema_tag_refuted :
    handleChange schemaMismatchEvent schemaMismatchSettings
      = [("useNamespaces", SettingsValue.strVal "raw")] ∧
    handleChangeSchemaTag OptionType.boolean schemaMismatchEvent schemaMismatchSettings
      = [("useNamespaces", SettingsValue.boolVal true)] ∧
    handleChange schemaMismatchEvent schemaMismatchSettings
      ≠ handleChangeSchemaTag OptionType.boolean schemaMismatchEvent schemaMismatchSettings := by
  refine ⟨?_, ?_, ?_⟩ <;> decide

/-- C1 (amended): the change handler decides boolean versus scalar handling
from the runtime type of the current settings field value, behaving exactly as
the schema-driven handler would if the declared tag were the runtime type of
the stored value. -/
theorem handleChange_uses_runtime_type (ev : EventTarget) (s : Settings) :
    handleChange ev s = handleChangeSchemaTag (runtimeTag (settingsGet s ev.name)) ev s := by
  unfold handleChange handleChangeSchemaTag
  by_cases h : settingsHas s ev.name = false
  · simp [h]
  · cases hg : settingsGet s ev.name with
    | none => cases hc : ev.checked <;> simp [h, hg, hc, runtimeTag]
    | some v =>
      cases v <;> cases hc : ev.checked <;> simp [h, hg, hc, runtimeTag]

/-- C6 counterexample: submitExtraFile is neither get nor getExtraFiles, yet
its declared return type in the ICodeGenerator interface is void, not a
reference to the instance. -/
theorem declaredReturn_not_all_selfRef :
    BackendMethod.submitExtraFileMethod ≠ BackendMethod.getMethod ∧
    BackendMethod.submitExtraFileMethod ≠ BackendMethod.getExtraFilesMethod ∧
    declaredReturn BackendMethod.submitExtraFileMethod = MethodReturn.voidRet ∧
    declaredReturn BackendMethod.submitExtraFileMethod ≠ MethodReturn.selfRef := by
  refine ⟨by decide, by decide, rfl, by decide⟩

/-- C6 (amended): exactly start, end, addNative, pushNamespace and
popNamespace are declared fluent, returning the instance itself; of the three
methods the claim singles out, nativeToCodeGenNative returns a CodeGenNative
and submitExtraFile and clearExtraFiles return void. -/
theorem declaredReturn_characterization :
    (∀ m : BackendMethod, declaredReturn m = MethodReturn.selfRef ↔
      (m = BackendMethod.startMethod ∨ m = BackendMethod.endMethod ∨
       m = BackendMethod.addNativeMethod ∨ m = BackendMethod.pushNamespaceMethod ∨
       m = BackendMethod.popNamespaceMethod)) ∧
    declaredReturn BackendMethod.nativeToCodeGenNativeMethod = MethodReturn.codeGenNativeRet ∧
    declaredReturn BackendMethod.submitExtraFileMethod = MethodReturn.voidRet ∧
    declaredReturn BackendMethod.clearExtraFilesMethod = MethodReturn.voidRet := by
  refine ⟨?_, rfl, rfl, rfl⟩
  intro m
  cases m <;> simp [declaredReturn]

theorem exportHashes_ok_isSome (b : BackendSpec) (natives : List (String × Native))
    (hs : List String) (st st2 : BackendState)
    (hok : exportHashes b natives hs st = Except.ok st2) :
    ∀ h ∈ hs, (lookupNative natives h).isSome = true := by
  induction hs generalizing st with
  | nil => intro h hh; cases hh
  | cons x rest ih =>
    intro h hh
    unfold exportHashes at hok
    split at hok
    · simp at hok
    next raw hl =>
      rcases List.mem_cons.mp hh with rfl | h2
      · rw [hl]; rfl
      · exact ih _ hok h h2

theorem exportNamespaces_ok_isSome (b : BackendSpec) (natives : List (String × Native))
    (nss : List (String × NamespaceDef)) (st st2 : BackendState)
    (hok : exportNamespaces b natives nss st = Except.ok st2) :
    ∀ ns ∈ nss, ∀ h ∈ ns.2.natives, (lookupNative natives h).isSome = true := by
  induction nss generalizing st with
  | nil => intro ns hns; cases hns
  | cons q rest ih =>
    obtain ⟨qk, qns⟩ := q
    intro ns hns h hh
    unfold exportNamespaces at hok
    split at hok
    · simp at hok
    next st3 hq =>
      rcases List.mem_cons.mp hns with rfl | h2
      · exact exportHashes_ok_isSome b natives qns.natives _ _ hq h hh
      · exact ih _ hok ns h2 h hh

/-- C2: whenever some namespace of the catalog lists a hash that is absent
from the catalog native map, exportNatives fails for the whole run with an
error and returns no text. -/
theorem exportNatives_missing_hash (b : BackendSpec) (cat : Catalog)
    (ns : String × NamespaceDef) (h : String)
    (hns : ns ∈ cat.namespaces) (hh : h ∈ ns.2.natives)
    (hmiss : lookupNative cat.natives h = none) :
    ∃ e, exportNatives b cat = Except.error e := by
  cases hexp : exportNamespaces b cat.natives cat.namespaces (backendStart b freshBackendState) with
  | error e =>
      refine ⟨e, ?_⟩
      unfold exportNatives
      rw [hexp]
  | ok st =>
      exfalso
      have hsome := exportNamespaces_ok_isSome b cat.natives cat.namespaces _ _ hexp ns hns h hh
      rw [hmiss] at hsome
      simp at hsome

/-- Witness for C2 at a one-namespace catalog whose only hash is absent from
the native map. -/
theorem exportNatives_missing_hash_witness :
    ("NATIVE", NamespaceDef.mk "NATIVE" ["0xDEAD"]) ∈ demoBrokenCatalog.namespaces ∧
    "0xDEAD" ∈ (NamespaceDef.mk "NATIVE" ["0xDEAD"]).natives ∧
    lookupNative demoBrokenCatalog.natives "0xDEAD" = none ∧
    ∃ e, exportNatives demoBackend demoBrokenCatalog = Except.error e :=
  ⟨by decide, by decide, rfl,
    exportNatives_missing_hash demoBackend demoBrokenCatalog
      ("NATIVE", NamespaceDef.mk "NATIVE" ["0xDEAD"]) "0xDEAD"
      (by decide) (by decide) rfl⟩

/-- C4: for a fixed catalog, backend and settings, any two successful
invocations of exportNatives return byte-identical main text and identical
extra-file lists; the modelled exporter drives a fresh backend instance
through one lifecycle per run, so no state crosses runs. -/
theorem exportNatives_deterministic (b : BackendSpec) (cat : Catalog)
    (t1 t2 : String) (e1 e2 : List CodeGeneratorFile)
    (h1 : exportNatives b cat = Except.ok (t1, e1))
    (h2 : exportNatives b cat = Except.ok (t2, e2)) :
    t1 = t2 ∧ e1 = e2 := by
  rw [h1] at h2
  have h3 := Except.ok.inj h2
  exact ⟨congrArg Prod.fst h3, congrArg Prod.snd h3⟩

/-- Witness for C4 at the concrete scenario catalog of the specification. -/
theorem exportNatives_deterministic_witness :
    exportNatives demoBackend demoCatalog
      = Except.ok ("namespace NATIVE\nGET_LABEL_TEXT\nend\n", [demoExtraFile]) ∧
    ("namespace NATIVE\nGET_LABEL_TEXT\nend\n" = "namespace NATIVE\nGET_LABEL_TEXT\nend\n" ∧
      ([demoExtraFile] : List CodeGeneratorFile) = [demoExtraFile]) :=
  ⟨rfl, exportNatives_deterministic demoBackend demoCatalog
    "namespace NATIVE\nGET_LABEL_TEXT\nend\n" "namespace NATIVE\nGET_LABEL_TEXT\nend\n"
    [demoExtraFile] [demoExtraFile] rfl rfl⟩

theorem submitMany_extraFiles (fs : List CodeGeneratorFile) (st : BackendState) :
    (submitMany st fs).extraFiles = st.extraFiles ++ fs := by
  induction fs generalizing st with
  | nil => simp [submitMany]
  | cons f rest ih =>
      have hstep : submitMany st (f :: rest) = submitMany (submitExtraFile st f) rest := rfl
      rw [hstep, ih]
      simp [submitExtraFile]

/-- C5: starting from an empty accumulator, a run of M submitExtraFile calls
makes getExtraFiles return exactly those M files in submission order, and for
any state clearExtraFiles followed by getExtraFiles yields the empty
sequence. -/
theorem extra_file_accumulation (st : BackendState) (fs : List CodeGeneratorFile)
    (hfresh : getExtraFiles st = []) :
    getExtraFiles (submitMany st fs) = fs ∧
    (getExtraFiles (submitMany st fs)).length = fs.length ∧
    ∀ st2 : BackendState, getExtraFiles (clearExtraFiles st2) = [] := by
  have h1 : getExtraFiles (submitMany st fs) = fs := by
    unfold getExtraFiles at hfresh ⊢
    rw [submitMany_extraFiles, hfresh]
    simp
  exact ⟨h1, by rw [h1], fun st2 => rfl⟩

/-- Witness for C5 with two submissions on a fresh backend state. -/
theorem extra_file_accumulation_witness :
    getExtraFiles freshBackendState = [] ∧
    getExtraFiles (submitMany freshBackendState [demoExtraFile, demoExtraFileTwo])
      = [demoExtraFile, demoExtraFileTwo] :=
  ⟨rfl, (extra_file_accumulation freshBackendState [demoExtraFile, demoExtraFileTwo] rfl).1⟩

/-- C8: every extra file returned by the export run is offered by the download
handler as its own download action whose filename is the file name, a dot,
and the file extension. -/
theorem handleDownload_extra_filenames (b : BackendSpec) (cat : Catalog) (ext : String)
    (code : String) (files : List CodeGeneratorFile) (acts : List DownloadAction)
    (hexp : exportNatives b cat = Except.ok (code, files))
    (hdl : handleDownload b cat ext = Except.ok acts) :
    ∀ f ∈ files,
      DownloadAction.mk f.content (f.name ++ "." ++ f.extension) f.mimeType ∈ acts := by
  intro f hf
  unfold handleDownload at hdl
  rw [hexp] at hdl
  have hacts := Except.ok.inj hdl
  rw [← hacts]
  exact List.mem_cons_of_mem _ (List.mem_map_of_mem _ hf)

/-- Witness for C8: the manifest extra file of the demo backend is offered as
a separate action named natives.json. -/
theorem handleDownload_extra_filenames_witness :
    DownloadAction.mk demoExtraFile.content
        (demoExtraFile.name ++ "." ++ demoExtraFile.extension) demoExtraFile.mimeType ∈
      [DownloadAction.mk "namespace NATIVE\nGET_LABEL_TEXT\nend\n" "natives.cs" "text/plain",
       DownloadAction.mk "manifest" "natives.json" "application/json"] :=
  handleDownload_extra_filenames demoBackend demoCatalog "cs"
    "namespace NATIVE\nGET_LABEL_TEXT\nend\n" [demoExtraFile]
    [DownloadAction.mk "namespace NATIVE\nGET_LABEL_TEXT\nend\n" "natives.cs" "text/plain",
     DownloadAction.mk "manifest" "natives.json" "application/json"]
    rfl rfl demoExtraFile (List.mem_singleton.mpr rfl)

/-- C9: every CodeGenType constructed by the modelled normalization has a
non-negative pointer count, both as the return type and as every parameter
type of a normalized native. -/
theorem codeGenType_pointers_nonneg :
    (∀ s : String, 0 ≤ (nativeTypeToCodeGenType s).pointers) ∧
    (∀ n : Native, 0 ≤ (nativeToCodeGenNative n).returnType.pointers ∧
      ∀ p ∈ (nativeToCodeGenNative n).params, 0 ≤ p.type.pointers) := by
  have hs : ∀ s : String, 0 ≤ (nativeTypeToCodeGenType s).pointers := by
    intro s
    exact Int.natCast_nonneg _
  refine ⟨hs, fun n => ⟨hs n.returnType, ?_⟩⟩
  intro p hp
  simp only [nativeToCodeGenNative, List.mem_map] at hp
  obtain ⟨q, hq, rfl⟩ := hp
  exact hs q.type

/-- Witness for C9 at the concrete scenario native, whose converted parameter
has pointer count one. -/
theorem codeGenType_pointers_nonneg_witness :
    CodeGenParam.mk (CodeGenType.mk 1 "char" true) "labelName"
        ∈ (nativeToCodeGenNative demoNative).params ∧
    0 ≤ (CodeGenParam.mk (CodeGenType.mk 1 "char" true) "labelName").type.pointers :=
  ⟨by decide, (codeGenType_pointers_nonneg.2 demoNative).2
    (CodeGenParam.mk (CodeGenType.mk 1 "char" true) "labelName") (by decide)⟩
